import Mathlib

/-!
Verification development for the EnterpriseFlow API gateway core.

The definitions below are a shallow embedding of the TypeScript source:
the circuit breaker service, the configuration manager, the policy engine
and the rate-limiting policy.  Timestamps (`Date.now()`) are passed in
explicitly as natural numbers; the logger is dropped; the event emitter
and the metrics collector are modelled as an explicit list of emitted
items where a claim needs them.  Numbers are modelled as `Nat`/`Int`
(the source only ever holds non-negative integers in these fields, with
one exception captured by `recordSuccessFailuresJs` below).
-/

namespace EF

/-- CircuitState from src/types: CLOSED = 0, OPEN = 1, HALF_OPEN = 2. -/
inductive CircuitState
  | CLOSED
  | OPEN
  | HALF_OPEN
deriving DecidableEq, Repr

/-- CircuitBreakerConfig from src/types.  In the source
`successesBeforeReset` and `distributed` are optional fields; this
embedding covers registrations that supply them (the source applies no
default for an omitted `successesBeforeReset`; the behaviour of the
omitted case is captured separately by `recordSuccessFailuresJs`). -/
structure CircuitBreakerConfig where
  failureThreshold : Nat
  resetTimeout : Nat
  successesBeforeReset : Nat
  distributed : Bool
deriving DecidableEq, Repr

/-- The per-service mutable fields of the CircuitBreaker class. -/
structure Breaker where
  serviceId : String
  state : CircuitState
  failures : Nat
  lastFailureTime : Nat
  nextAttemptTime : Nat
  config : CircuitBreakerConfig
deriving DecidableEq, Repr

/-- A freshly constructed CircuitBreaker: the field initializers of the
class (state CLOSED, failures 0, lastFailureTime 0, nextAttemptTime 0). -/
def freshBreaker (sid : String) (cfg : CircuitBreakerConfig) : Breaker :=
  { serviceId := sid
    state := .CLOSED
    failures := 0
    lastFailureTime := 0
    nextAttemptTime := 0
    config := cfg }

/-- Error value passed to recordFailure: `error.message` and
`error.constructor.name`. -/
structure ErrInfo where
  message : String
  errorType : String
deriving DecidableEq, Repr

/-- FailureEvent from src/types, built by recordFailure. -/
structure FailureEvent where
  serviceId : String
  timestamp : Nat
  error : String
  errorType : String
  state : CircuitState
deriving DecidableEq, Repr

/-- Observable side effects of a breaker operation: metric-collector
calls and event-emitter emissions, in call order. -/
inductive Emitted
  | metricFailure (serviceId : String) (errorType : String)
  | failureEvent (e : FailureEvent)
  | stateChange (serviceId : String) (state : CircuitState) (timestamp : Nat)
deriving DecidableEq, Repr

/-- CircuitBreaker.isAllowed.  Returns the boolean decision together
with the breaker after the call (OPEN moves to HALF_OPEN when
`now >= nextAttemptTime`).  The Redis write and the event emission on
the OPEN to HALF_OPEN transition are dropped side channels here. -/
def Breaker.isAllowed (b : Breaker) (now : Nat) : Bool × Breaker :=
  match b.state with
  | .CLOSED => (true, b)
  | .OPEN =>
      if b.nextAttemptTime ≤ now then
        (true, { b with state := .HALF_OPEN })
      else
        (false, b)
  | .HALF_OPEN => (true, b)

/-- CircuitBreaker.reset: force CLOSED and clear the counters. -/
def Breaker.reset (b : Breaker) : Breaker :=
  { b with state := .CLOSED, failures := 0, nextAttemptTime := 0 }

/-- CircuitBreaker.recordSuccess.  In HALF_OPEN the breaker is reset;
then, in CLOSED with failures > 0, the failure count becomes
`Math.max(0, failures - config.successesBeforeReset)` (computed over
`Int` and truncated back, mirroring the source arithmetic). -/
def Breaker.recordSuccess (b : Breaker) : Breaker :=
  let b1 := if b.state = .HALF_OPEN then b.reset else b
  if b1.state = .CLOSED ∧ 0 < b1.failures then
    { b1 with failures :=
        (max 0 ((b1.failures : Int) - (b1.config.successesBeforeReset : Int))).toNat }
  else b1

/-- CircuitBreaker.recordFailure.  Always sets lastFailureTime and
increments failures, records a failure metric and emits the failure
event; then CLOSED opens when the incremented count reaches the
threshold, and HALF_OPEN re-opens, both setting
`nextAttemptTime = now + resetTimeout` and emitting a state change. -/
def Breaker.recordFailure (b : Breaker) (now : Nat) (err : ErrInfo) :
    Breaker × List Emitted :=
  let b1 := { b with lastFailureTime := now, failures := b.failures + 1 }
  let ev : FailureEvent :=
    { serviceId := b.serviceId
      timestamp := now
      error := err.message
      errorType := err.errorType
      state := b1.state }
  let base : List Emitted :=
    [.metricFailure b.serviceId err.errorType, .failureEvent ev]
  if b1.state = .CLOSED ∧ b1.config.failureThreshold ≤ b1.failures then
    ({ b1 with state := .OPEN, nextAttemptTime := now + b1.config.resetTimeout },
     base ++ [.stateChange b.serviceId .OPEN now])
  else if b1.state = .HALF_OPEN then
    ({ b1 with state := .OPEN, nextAttemptTime := now + b1.config.resetTimeout },
     base ++ [.stateChange b.serviceId .OPEN now])
  else
    (b1, base)

/-- CircuitBreaker.updateConfig, reached through
CircuitBreakerService.register on an already registered service id.
The source merges `{ ...this.config, ...config }`; with every field of
the incoming config supplied (as in this embedding's config type) the
merge is a full replacement. -/
def Breaker.updateConfig (b : Breaker) (cfg : CircuitBreakerConfig) : Breaker :=
  { b with config := cfg }

/-- CircuitBreaker.initializeFromRedis: when a stored state is present,
all four runtime fields are overwritten with the stored values (absent
keys parse as 0 via the `|| '0'` fallback); with no stored state the
breaker is left untouched. -/
def Breaker.initFromRedis (b : Breaker) (st : Option CircuitState)
    (failures lastF nextA : Nat) : Breaker :=
  match st with
  | none => b
  | some s =>
      { b with
        state := s
        failures := failures
        lastFailureTime := lastF
        nextAttemptTime := nextA }

/-- One runtime operation against a breaker, with its `Date.now()`. -/
inductive BreakerOp
  | isAllowed (now : Nat)
  | recordSuccess
  | recordFailure (now : Nat) (err : ErrInfo)
  | reset
deriving Repr

/-- Apply one runtime operation, keeping the breaker component. -/
def Breaker.applyOp (b : Breaker) (op : BreakerOp) : Breaker :=
  match op with
  | .isAllowed now => (b.isAllowed now).2
  | .recordSuccess => b.recordSuccess
  | .recordFailure now err => (b.recordFailure now err).1
  | .reset => b.reset

/-- Run a sequence of runtime operations left to right. -/
def Breaker.runOps (b : Breaker) (ops : List BreakerOp) : Breaker :=
  ops.foldl Breaker.applyOp b

/-- Number of recordFailure operations in a sequence. -/
def failureCount (ops : List BreakerOp) : Nat :=
  ops.countP fun op =>
    match op with
    | .recordFailure _ _ => true
    | _ => false

/-- Iterated recordFailure (state component only). -/
def failIter (b : Breaker) (now : Nat) (err : ErrInfo) (k : Nat) : Breaker :=
  Nat.iterate (fun x => (x.recordFailure now err).1) k b

/-- A JavaScript number that is either an integer or NaN. -/
inductive JsNum
  | num (n : Int)
  | nan
deriving DecidableEq, Repr

/-- JavaScript subtraction `a - b` where `b` may be `undefined`
(an absent optional field): `number - undefined` is NaN. -/
def jsSubUndef (a : Int) (b : Option Int) : JsNum :=
  match b with
  | some n => .num (a - n)
  | none => .nan

/-- JavaScript `Math.max(0, x)`: NaN propagates. -/
def jsMaxZero : JsNum → JsNum
  | .num n => .num (max 0 n)
  | .nan => .nan

/-- The new failure count computed by recordSuccess in CLOSED with
failures > 0: `Math.max(0, failures - config.successesBeforeReset)`,
with the optional config field modelled as it is in the source (no
default is applied when the registered config omits it). -/
def recordSuccessFailuresJs (failures : Int) (sbr : Option Int) : JsNum :=
  jsMaxZero (jsSubUndef failures sbr)

/-- JavaScript increment `x++`: NaN propagates. -/
def jsAddOne : JsNum → JsNum
  | .num n => .num (n + 1)
  | .nan => .nan

/-- JavaScript comparison `a >= b` (false when a is NaN). -/
def jsGeNat : JsNum → Nat → Bool
  | .num n, b => decide ((b : Int) ≤ n)
  | .nan, _ => false

/-- JavaScript comparison `a > 0` (false when a is NaN). -/
def jsGtZero : JsNum → Bool
  | .num n => decide (0 < n)
  | .nan => false

/-- JavaScript comparison `a < b` (false when a is NaN). -/
def jsLtNat : JsNum → Nat → Bool
  | .num n, b => decide (n < (b : Int))
  | .nan, _ => false

/-- JavaScript subtraction `a - b` where `b` may be an absent optional
field (undefined): the result is NaN when either side is not a number. -/
def jsSubOptNat : JsNum → Option Nat → JsNum
  | .num n, some s => .num (n - (s : Int))
  | _, _ => .nan

/-- CircuitBreakerConfig with the source's optionality kept: the
registered config may omit successesBeforeReset, and the code applies
no default for it. -/
structure CircuitBreakerConfigJs where
  failureThreshold : Nat
  resetTimeout : Nat
  successesBeforeReset : Option Nat
  distributed : Bool
deriving DecidableEq, Repr

/-- The CircuitBreaker runtime fields with JavaScript number semantics
for the failure counter, so that the omitted-field NaN behaviour of
recordSuccess is representable. -/
structure BreakerJs where
  serviceId : String
  state : CircuitState
  failures : JsNum
  lastFailureTime : Nat
  nextAttemptTime : Nat
  config : CircuitBreakerConfigJs
deriving DecidableEq, Repr

/-- A freshly constructed CircuitBreaker over the JS-number model. -/
def freshBreakerJs (sid : String) (cfg : CircuitBreakerConfigJs) : BreakerJs :=
  { serviceId := sid
    state := .CLOSED
    failures := .num 0
    lastFailureTime := 0
    nextAttemptTime := 0
    config := cfg }

/-- CircuitBreaker.isAllowed over the JS-number model (the failure
counter plays no part in admission). -/
def BreakerJs.isAllowed (b : BreakerJs) (now : Nat) : Bool × BreakerJs :=
  match b.state with
  | .CLOSED => (true, b)
  | .OPEN =>
      if b.nextAttemptTime ≤ now then
        (true, { b with state := .HALF_OPEN })
      else
        (false, b)
  | .HALF_OPEN => (true, b)

/-- CircuitBreaker.reset over the JS-number model. -/
def BreakerJs.reset (b : BreakerJs) : BreakerJs :=
  { b with state := .CLOSED, failures := .num 0, nextAttemptTime := 0 }

/-- CircuitBreaker.recordSuccess over the JS-number model: in CLOSED
with failures > 0 the counter becomes
`Math.max(0, failures - config.successesBeforeReset)`, which is NaN
when the registered config omits the field. -/
def BreakerJs.recordSuccess (b : BreakerJs) : BreakerJs :=
  let b1 := if b.state = .HALF_OPEN then b.reset else b
  if b1.state = .CLOSED ∧ jsGtZero b1.failures = true then
    { b1 with failures :=
        jsMaxZero (jsSubOptNat b1.failures b1.config.successesBeforeReset) }
  else b1

/-- CircuitBreaker.recordFailure over the JS-number model (breaker
fields only; a NaN counter never satisfies `failures >= threshold`). -/
def BreakerJs.recordFailure (b : BreakerJs) (now : Nat) : BreakerJs :=
  let b1 := { b with lastFailureTime := now, failures := jsAddOne b.failures }
  if b1.state = .CLOSED ∧ jsGeNat b1.failures b1.config.failureThreshold = true then
    { b1 with state := .OPEN, nextAttemptTime := now + b1.config.resetTimeout }
  else if b1.state = .HALF_OPEN then
    { b1 with state := .OPEN, nextAttemptTime := now + b1.config.resetTimeout }
  else
    b1

/-- Apply one runtime operation over the JS-number model. -/
def BreakerJs.applyOp (b : BreakerJs) (op : BreakerOp) : BreakerJs :=
  match op with
  | .isAllowed now => (b.isAllowed now).2
  | .recordSuccess => b.recordSuccess
  | .recordFailure now _ => b.recordFailure now
  | .reset => b.reset

/-- Run a sequence of runtime operations over the JS-number model. -/
def BreakerJs.runOps (b : BreakerJs) (ops : List BreakerOp) : BreakerJs :=
  ops.foldl BreakerJs.applyOp b

/-- Result of a JavaScript call that may throw. -/
inductive JsResult (α : Type)
  | ok (val : α)
  | exn
deriving DecidableEq, Repr

/-- A route definition as the ConfigManager stores it (the fields a
mutation inspects; the remaining optional RouteConfig fields play no
role in the mutations). -/
structure RouteConfig where
  name : String
  pattern : String
  target : String
deriving DecidableEq, Repr

/-- ConfigManager state: the in-memory route list together with the
last successfully written contents of routes.json and of the
`config:routes` key in the shared store. -/
structure StoreState where
  routes : List RouteConfig
  file : Option (List RouteConfig)
  redis : Option (List RouteConfig)
deriving DecidableEq, Repr

/-- Which of the two writes fail during a mutation. -/
structure WriteEnv where
  fileWriteFails : Bool
  redisWriteFails : Bool
deriving DecidableEq, Repr

/-- ConfigManager.saveRoutes: write the file (a throw propagates), then
mirror to the shared store via saveRoutesToRedis, which catches and
logs its own errors. -/
def saveRoutes (env : WriteEnv) (s : StoreState) : StoreState × JsResult Unit :=
  if env.fileWriteFails then
    (s, .exn)
  else
    let s1 := { s with file := some s.routes }
    if env.redisWriteFails then
      (s1, .ok ())
    else
      ({ s1 with redis := some s1.routes }, .ok ())

/-- ConfigManager.addRoute: push the route, then saveRoutes. -/
def addRoute (env : WriteEnv) (s : StoreState) (r : RouteConfig) :
    StoreState × JsResult Unit :=
  let s1 := { s with routes := s.routes ++ [r] }
  saveRoutes env s1

/-- ConfigManager.updateRoute: find the index by name (false when
absent), replace in place, then saveRoutes. -/
def updateRoute (env : WriteEnv) (s : StoreState) (nm : String)
    (r : RouteConfig) : StoreState × JsResult Bool :=
  match s.routes.findIdx? (fun q => q.name = nm) with
  | none => (s, .ok false)
  | some i =>
      let sv := saveRoutes env { s with routes := s.routes.set i r }
      (sv.1, match sv.2 with | .ok _ => .ok true | .exn => .exn)

/-- ConfigManager.deleteRoute: filter out every route with the given
name (false when nothing was removed, with no write), then saveRoutes. -/
def deleteRoute (env : WriteEnv) (s : StoreState) (nm : String) :
    StoreState × JsResult Bool :=
  let filtered := s.routes.filter fun q => q.name ≠ nm
  if filtered.length = s.routes.length then
    ({ s with routes := filtered }, .ok false)
  else
    let sv := saveRoutes env { s with routes := filtered }
    (sv.1, match sv.2 with | .ok _ => .ok true | .exn => .exn)

/-- PolicyResult from the policy engine. -/
structure PolicyResult where
  allowed : Bool
  statusCode : Option Nat := none
  error : Option String := none
  reason : Option String := none
  policyName : Option String := none
deriving DecidableEq, Repr

/-- A policy's evaluate method, at a fixed request, as a transformer of
the evaluation state `σ` (the mutable context together with whatever
store the policy touches). -/
def Policy (σ : Type) : Type :=
  σ → PolicyResult × σ

/-- The engine's registry: name to policy, looked up by name.  Policies
are modelled as total (the engine's catch-of-a-thrown-policy branch is
dead code for them). -/
def PolicyEngine (σ : Type) : Type :=
  List (String × Policy σ)

/-- PolicyEngine.getPolicy. -/
def getPolicy {σ : Type} (engine : PolicyEngine σ) (n : String) :
    Option (String × Policy σ) :=
  engine.find? fun p => p.1 = n

/-- PolicyEngine.applyPolicies: iterate the names in order; a missing
name is skipped; the first result with allowed = false is returned with
the policy's name attached; otherwise allowed. -/
def applyPolicies {σ : Type} (engine : PolicyEngine σ) :
    List String → σ → PolicyResult
  | [], _ => { allowed := true }
  | n :: rest, st =>
      match getPolicy engine n with
      | none => applyPolicies engine rest st
      | some p =>
          let r := p.2 st
          if r.1.allowed then applyPolicies engine rest r.2
          else { r.1 with policyName := some n }

/-- The full evaluation trace of the registered policies of a chain, in
order, threading the evaluation state and never stopping early: the
(name, result) pairs the spec's wording quantifies over. -/
def evalTrace {σ : Type} (engine : PolicyEngine σ) :
    List String → σ → List (String × PolicyResult)
  | [], _ => []
  | n :: rest, st =>
      match getPolicy engine n with
      | none => evalTrace engine rest st
      | some p =>
          let r := p.2 st
          (n, r.1) :: evalTrace engine rest r.2

/-- State of a single rate-limit counter key
`ratelimit:{route}:{ip}` in the shared store. -/
structure RLState where
  count : Nat
  expiry : Option Nat
deriving DecidableEq, Repr

/-- JavaScript `x || d` over an optional numeric field: an absent field
and the falsy 0 both give the default. -/
def jsOrNum (x : Option Nat) (d : Nat) : Nat :=
  match x with
  | some n => if n = 0 then d else n
  | none => d

/-- RateLimitingPolicy.evaluate for a fixed route and client IP, on the
store-available path: read the counter (a missing key reads as 0), deny
429 when `count >= limit`, else increment and, when the counter was 0,
set the window expiry.  Limit and window come from the context with
defaults 100 and 60. -/
def rlEvaluate (limitOpt windowOpt : Option Nat) (st : RLState) :
    PolicyResult × RLState :=
  let limit := jsOrNum limitOpt 100
  let windowSec := jsOrNum windowOpt 60
  if limit ≤ st.count then
    ({ allowed := false
       statusCode := some 429
       error := some "Too Many Requests"
       reason := some s!"Rate limit of {limit} requests per {windowSec} seconds exceeded" },
     st)
  else
    let st1 := { st with count := st.count + 1 }
    let st2 := if st.count = 0 then { st1 with expiry := some windowSec } else st1
    ({ allowed := true }, st2)

/-- The counter state after one rate-limited request. -/
def rlStep (limitOpt windowOpt : Option Nat) (st : RLState) : RLState :=
  (rlEvaluate limitOpt windowOpt st).2

/-- The counter state after k requests in one window, starting from an
absent key. -/
def rlIter (limitOpt windowOpt : Option Nat) (k : Nat) : RLState :=
  Nat.iterate (rlStep limitOpt windowOpt) k { count := 0, expiry := none }

/-- A sample error value. -/
def errW : ErrInfo := { message := "boom", errorType := "Error" }

/-- A config with threshold 1 and a 5 ms reset timeout. -/
def cfgOne : CircuitBreakerConfig :=
  { failureThreshold := 1, resetTimeout := 5, successesBeforeReset := 1, distributed := false }

/-- The repository's default breaker config values. -/
def cfgFive : CircuitBreakerConfig :=
  { failureThreshold := 5, resetTimeout := 30000, successesBeforeReset := 1, distributed := false }

/-- A replacement config with a lower threshold. -/
def cfgTwo : CircuitBreakerConfig :=
  { failureThreshold := 2, resetTimeout := 30000, successesBeforeReset := 1, distributed := false }

/-- One failure at time 0. -/
def opsC1 : List BreakerOp := [.recordFailure 0 errW]

/-- Three failures at times 0, 1, 2. -/
def opsC9 : List BreakerOp :=
  [.recordFailure 0 errW, .recordFailure 1 errW, .recordFailure 2 errW]

/-- A breaker sitting in OPEN with next attempt at 40. -/
def bOpenW : Breaker :=
  { serviceId := "svc", state := .OPEN, failures := 5, lastFailureTime := 0, nextAttemptTime := 40, config := cfgFive }

/-- Both writes succeed. -/
def envOk : WriteEnv := { fileWriteFails := false, redisWriteFails := false }

/-- The file write fails, the shared-store write would succeed. -/
def envFileFail : WriteEnv := { fileWriteFails := true, redisWriteFails := false }

/-- A sample route named x. -/
def r0 : RouteConfig := { name := "x", pattern := "/x", target := "http://t" }

/-- A sample route named y. -/
def r1 : RouteConfig := { name := "y", pattern := "/y", target := "http://t2" }

/-- A store already holding the route named x. -/
def s0 : StoreState := { routes := [r0], file := none, redis := none }

/-- Invariant used for the OPEN-implies-threshold direction: outside
CLOSED the stored failure counter has reached the threshold. -/
def openInv (b : Breaker) : Prop :=
  b.state ≠ .CLOSED → b.config.failureThreshold ≤ b.failures

/-- A JS-model config supplying every field, with the repository's
default threshold and timeout. -/
def cfgJsFive : CircuitBreakerConfigJs :=
  { failureThreshold := 5, resetTimeout := 30000, successesBeforeReset := some 1, distributed := false }

/-- The repository's default route registration over the JS model:
successesBeforeReset is omitted. -/
def cfgJsDefault : CircuitBreakerConfigJs :=
  { failureThreshold := 5, resetTimeout := 30000, successesBeforeReset := none, distributed := false }

/-- The spec's §3 state invariants for a breaker, read over JavaScript
numbers: `failures < failure_threshold` is false when failures is NaN. -/
def stateInvJs (b : BreakerJs) : Prop :=
  (b.state = .CLOSED → jsLtNat b.failures b.config.failureThreshold = true)
  ∧ (b.state = .OPEN → 0 < b.nextAttemptTime)

/-- C2: the admission contract of isAllowed.  CLOSED and HALF_OPEN
admit and leave the breaker unchanged; OPEN admits iff the current time
is at or past nextAttemptTime, moving the state to HALF_OPEN in that
case and leaving the breaker unchanged otherwise. -/
theorem isAllowed_admission (b : Breaker) (now : Nat) :
    (b.state = .CLOSED → b.isAllowed now = (true, b))
    ∧ (b.state = .HALF_OPEN → b.isAllowed now = (true, b))
    ∧ (b.state = .OPEN →
        (b.nextAttemptTime ≤ now →
          b.isAllowed now = (true, { b with state := .HALF_OPEN }))
        ∧ (now < b.nextAttemptTime → b.isAllowed now = (false, b))) := by
  refine ⟨?_, ?_, fun h => ⟨?_, ?_⟩⟩
  · intro h
    simp [Breaker.isAllowed, h]
  · intro h
    simp [Breaker.isAllowed, h]
  · intro hle
    simp [Breaker.isAllowed, h, hle]
  · intro hlt
    simp [Breaker.isAllowed, h, Nat.not_le.mpr hlt]

/-- Witness for C2 at a concrete OPEN breaker, on both sides of the
timeout. -/
theorem isAllowed_admission_witness :
    Breaker.isAllowed bOpenW 50 = (true, { bOpenW with state := .HALF_OPEN })
    ∧ Breaker.isAllowed bOpenW 10 = (false, bOpenW) :=
  ⟨((isAllowed_admission bOpenW 50).2.2 rfl).1 (by decide),
   ((isAllowed_admission bOpenW 10).2.2 rfl).2 (by decide)⟩

/-- C3: the failure-count update of recordSuccess in CLOSED with
failures > 0.  When the registered config supplies
successesBeforeReset = 1 the new count is max(0, failures - 1) as the
claim states, but when the config omits the field the source applies no
default: the JavaScript subtraction yields NaN, not max(0, failures - 1). -/
theorem recordSuccess_omitted_default_is_nan :
    recordSuccessFailuresJs 1 none = JsNum.nan
    ∧ recordSuccessFailuresJs 1 (some 1) = JsNum.num 0 := by
  constructor
  · rfl
  · decide

/-- Helper: recordFailure on an OPEN breaker only bumps the counter and
the last-failure time. -/
lemma recordFailure_open (sid : String) (f lf na : Nat)
    (cfg : CircuitBreakerConfig) (now : Nat) (err : ErrInfo) :
    (Breaker.recordFailure ⟨sid, .OPEN, f, lf, na, cfg⟩ now err).1
      = ⟨sid, .OPEN, f + 1, now, na, cfg⟩ := by
  simp [Breaker.recordFailure]

/-- Helper: iterating recordFailure from OPEN stays OPEN, adds one
failure per call and never moves nextAttemptTime. -/
lemma failIter_open (now : Nat) (err : ErrInfo) :
    ∀ (k : Nat) (sid : String) (f lf na : Nat) (cfg : CircuitBreakerConfig),
      (failIter ⟨sid, .OPEN, f, lf, na, cfg⟩ now err k).state = .OPEN
      ∧ (failIter ⟨sid, .OPEN, f, lf, na, cfg⟩ now err k).failures = f + k
      ∧ (failIter ⟨sid, .OPEN, f, lf, na, cfg⟩ now err k).nextAttemptTime = na := by
  intro k
  induction k with
  | zero =>
      intro sid f lf na cfg
      simp [failIter]
  | succ k ih =>
      intro sid f lf na cfg
      have h1 : failIter ⟨sid, .OPEN, f, lf, na, cfg⟩ now err (k + 1)
          = failIter ⟨sid, .OPEN, f + 1, now, na, cfg⟩ now err k := by
        simp only [failIter, Function.iterate_succ_apply, recordFailure_open]
      rcases ih sid (f + 1) now na cfg with ⟨hs, hf, hn⟩
      refine ⟨h1 ▸ hs, ?_, h1 ▸ hn⟩
      rw [h1, hf]
      omega

/-- C10: recordFailure unconditionally increments the failure count,
stamps lastFailureTime, records a failure metric and emits the failure
event carrying the pre-call state; in OPEN it neither changes the state
nor moves nextAttemptTime, so iterated failures grow the counter
without bound while the circuit stays OPEN. -/
theorem recordFailure_always_counts (b : Breaker) (now : Nat) (err : ErrInfo) :
    (b.recordFailure now err).1.failures = b.failures + 1
    ∧ (b.recordFailure now err).1.lastFailureTime = now
    ∧ Emitted.metricFailure b.serviceId err.errorType ∈ (b.recordFailure now err).2
    ∧ Emitted.failureEvent { serviceId := b.serviceId, timestamp := now, error := err.message, errorType := err.errorType, state := b.state } ∈ (b.recordFailure now err).2
    ∧ (b.state = .OPEN →
        (b.recordFailure now err).1.state = .OPEN
        ∧ (b.recordFailure now err).1.nextAttemptTime = b.nextAttemptTime
        ∧ ∀ k, (failIter b now err k).state = .OPEN
             ∧ (failIter b now err k).failures = b.failures + k) := by
  rcases b with ⟨sid, st, f, lf, na, cfg⟩
  cases st with
  | CLOSED =>
      by_cases hth : cfg.failureThreshold ≤ f + 1
      · simp [Breaker.recordFailure, hth]
      · simp [Breaker.recordFailure, hth]
  | OPEN =>
      refine ⟨?_, ?_, ?_, ?_, fun _ => ⟨?_, ?_, fun k => ?_⟩⟩
      case refine_7 =>
        exact ⟨(failIter_open now err k sid f lf na cfg).1,
               (failIter_open now err k sid f lf na cfg).2.1⟩
      all_goals simp [Breaker.recordFailure]
  | HALF_OPEN =>
      simp [Breaker.recordFailure]

/-- Witness for C10: three failures against a concrete OPEN breaker
leave it OPEN with three more recorded failures. -/
theorem recordFailure_always_counts_witness :
    (failIter bOpenW 7 errW 3).state = CircuitState.OPEN
    ∧ (failIter bOpenW 7 errW 3).failures = bOpenW.failures + 3 :=
  ((recordFailure_always_counts bOpenW 7 errW).2.2.2.2 rfl).2.2 3

/-- Helper: no runtime operation touches the registered config. -/
lemma applyOp_config (b : Breaker) (op : BreakerOp) :
    (b.applyOp op).config = b.config := by
  rcases b with ⟨sid, st, f, lf, na, cfg⟩
  cases op with
  | isAllowed now =>
      cases st <;>
        simp [Breaker.applyOp, Breaker.isAllowed] <;> split <;> rfl
  | recordSuccess =>
      cases st <;>
        simp [Breaker.applyOp, Breaker.recordSuccess, Breaker.reset] <;> split <;> rfl
  | recordFailure now err =>
      cases st <;>
        simp [Breaker.applyOp, Breaker.recordFailure] <;> split <;> rfl
  | reset =>
      rfl

/-- Helper: running a sequence of operations keeps the config. -/
lemma runOps_config (ops : List BreakerOp) :
    ∀ b : Breaker, (b.runOps ops).config = b.config := by
  induction ops with
  | nil => intro b; rfl
  | cons op rest ih =>
      intro b
      calc (b.runOps (op :: rest)).config
          = ((b.applyOp op).runOps rest).config := rfl
        _ = (b.applyOp op).config := ih _
        _ = b.config := applyOp_config b op

/-- Helper: one operation preserves the OPEN-implies-threshold
invariant. -/
lemma applyOp_openInv (b : Breaker) (op : BreakerOp) (h : openInv b) :
    openInv (b.applyOp op) := by
  rcases b with ⟨sid, st, f, lf, na, cfg⟩
  cases op with
  | isAllowed now =>
      cases st with
      | CLOSED => exact h
      | OPEN =>
          by_cases hle : na ≤ now
          · have hred : Breaker.applyOp ⟨sid, .OPEN, f, lf, na, cfg⟩ (.isAllowed now)
                = ⟨sid, .HALF_OPEN, f, lf, na, cfg⟩ := by
              simp [Breaker.applyOp, Breaker.isAllowed, hle]
            rw [hred]
            intro _
            exact h (by simp)
          · have hred : Breaker.applyOp ⟨sid, .OPEN, f, lf, na, cfg⟩ (.isAllowed now)
                = ⟨sid, .OPEN, f, lf, na, cfg⟩ := by
              simp [Breaker.applyOp, Breaker.isAllowed, hle]
            rw [hred]
            exact h
      | HALF_OPEN => exact h
  | recordSuccess =>
      cases st with
      | CLOSED =>
          by_cases hf : 0 < f <;>
            simp [Breaker.applyOp, Breaker.recordSuccess, openInv, hf]
      | OPEN =>
          simpa [Breaker.applyOp, Breaker.recordSuccess, openInv] using h
      | HALF_OPEN =>
          simp [Breaker.applyOp, Breaker.recordSuccess, Breaker.reset, openInv]
  | recordFailure now err =>
      cases st with
      | CLOSED =>
          by_cases hth : cfg.failureThreshold ≤ f + 1 <;>
            simp [Breaker.applyOp, Breaker.recordFailure, openInv, hth]
      | OPEN =>
          have hf : cfg.failureThreshold ≤ f := h (by simp [openInv])
          simp only [Breaker.applyOp, recordFailure_open]
          intro _
          simpa using Nat.le_succ_of_le hf
      | HALF_OPEN =>
          have hf : cfg.failureThreshold ≤ f := h (by simp [openInv])
          simp [Breaker.applyOp, Breaker.recordFailure, openInv]
          omega
  | reset =>
      simp [Breaker.applyOp, Breaker.reset, openInv]

/-- Helper: the OPEN-implies-threshold invariant along any run. -/
lemma runOps_openInv (ops : List BreakerOp) :
    ∀ b : Breaker, openInv b → openInv (b.runOps ops) := by
  induction ops with
  | nil => intro b h; exact h
  | cons op rest ih =>
      intro b h
      exact ih _ (applyOp_openInv b op h)

/-- C1 (amended): on any run from a fresh breaker the state is outside
CLOSED only if the stored failure counter (zeroed at each reset) has
reached the threshold; and the converse direction fails through time
alone: an OPEN breaker is left exactly as it is by recordSuccess and by
recordFailure, and by isAllowed before nextAttemptTime, so only an
admission check at or past nextAttemptTime (or a reset) ends OPEN. -/
theorem breaker_open_characterization (cfg : CircuitBreakerConfig)
    (sid : String) (ops : List BreakerOp) (b : Breaker) (now : Nat)
    (err : ErrInfo) :
    (((freshBreaker sid cfg).runOps ops).state ≠ CircuitState.CLOSED →
        cfg.failureThreshold ≤ ((freshBreaker sid cfg).runOps ops).failures)
    ∧ (b.state = CircuitState.OPEN →
        b.recordSuccess = b
        ∧ (b.recordFailure now err).1.state = CircuitState.OPEN
        ∧ (now < b.nextAttemptTime → (b.isAllowed now).2 = b)) := by
  constructor
  · intro hne
    have hfresh : openInv (freshBreaker sid cfg) := by
      intro hx
      exact absurd rfl hx
    have hrun := runOps_openInv ops (freshBreaker sid cfg) hfresh hne
    have hcfg := runOps_config ops (freshBreaker sid cfg)
    rw [hcfg] at hrun
    exact hrun
  · rcases b with ⟨sid2, st, f, lf, na, cfg2⟩
    intro hs
    cases st with
    | OPEN =>
        refine ⟨?_, ?_, ?_⟩
        · simp [Breaker.recordSuccess]
        · simp [recordFailure_open]
        · intro hlt
          simp [Breaker.isAllowed, Nat.not_le.mpr hlt]
    | CLOSED => cases hs
    | HALF_OPEN => cases hs

/-- Counterexample to C1 as stated: one failure opens a breaker with
threshold 1 and reset timeout 5 at time 0; observed at time 10 the
timeout has elapsed yet the state is still OPEN, because no admission
check has run, so the claimed iff fails. -/
theorem breaker_open_iff_cex :
    ¬ (((freshBreaker "svc" cfgOne).runOps opsC1).state = CircuitState.OPEN
        ↔ (cfgOne.failureThreshold ≤ failureCount opsC1
           ∧ 10 < ((freshBreaker "svc" cfgOne).runOps opsC1).nextAttemptTime)) := by
  decide

/-- Witness for C1 (amended): a concrete opened breaker has reached its
threshold, and a concrete OPEN breaker is untouched by recordSuccess. -/
theorem breaker_open_characterization_witness :
    cfgOne.failureThreshold ≤ ((freshBreaker "svc" cfgOne).runOps opsC1).failures
    ∧ Breaker.recordSuccess bOpenW = bOpenW :=
  ⟨(breaker_open_characterization cfgOne "svc" opsC1 bOpenW 0 errW).1 (by decide),
   ((breaker_open_characterization cfgOne "svc" opsC1 bOpenW 0 errW).2 rfl).1⟩

/-- Helper: recordFailure on an OPEN breaker in the JS model only bumps
the counter and the last-failure time. -/
lemma recordFailureJs_open (sid : String) (f : JsNum) (lf na : Nat)
    (cfg : CircuitBreakerConfigJs) (now : Nat) :
    BreakerJs.recordFailure ⟨sid, .OPEN, f, lf, na, cfg⟩ now
      = ⟨sid, .OPEN, jsAddOne f, now, na, cfg⟩ := by
  simp [BreakerJs.recordFailure]

/-- Helper: no runtime operation touches the registered config in the
JS model. -/
lemma applyOpJs_config (b : BreakerJs) (op : BreakerOp) :
    (b.applyOp op).config = b.config := by
  rcases b with ⟨sid, st, f, lf, na, cfg⟩
  cases op with
  | isAllowed now =>
      cases st <;>
        simp [BreakerJs.applyOp, BreakerJs.isAllowed] <;> split <;> rfl
  | recordSuccess =>
      cases st <;>
        simp [BreakerJs.applyOp, BreakerJs.recordSuccess, BreakerJs.reset] <;>
          split <;> rfl
  | recordFailure now err =>
      cases st <;>
        simp [BreakerJs.applyOp, BreakerJs.recordFailure] <;> split <;> rfl
  | reset =>
      rfl

/-- Helper: running a sequence of operations keeps the config in the JS
model. -/
lemma runOpsJs_config (ops : List BreakerOp) :
    ∀ b : BreakerJs, (b.runOps ops).config = b.config := by
  induction ops with
  | nil => intro b; rfl
  | cons op rest ih =>
      intro b
      calc (b.runOps (op :: rest)).config
          = ((b.applyOp op).runOps rest).config := rfl
        _ = (b.applyOp op).config := ih _
        _ = b.config := applyOpJs_config b op

/-- Helper: one runtime operation preserves the spec's state invariants
over the JS model, given a positive threshold, a positive reset timeout
and a supplied successesBeforeReset. -/
lemma applyOpJs_stateInv (b : BreakerJs) (op : BreakerOp)
    (hT : 0 < b.config.failureThreshold) (hR : 0 < b.config.resetTimeout)
    (hS : b.config.successesBeforeReset.isSome = true)
    (h : stateInvJs b) : stateInvJs (b.applyOp op) := by
  rcases b with ⟨sid, st, f, lf, na, cfg⟩
  dsimp only at hT hR hS
  obtain ⟨h1, h2⟩ := h
  cases op with
  | isAllowed now =>
      cases st with
      | CLOSED => exact ⟨h1, h2⟩
      | OPEN =>
          by_cases hle : na ≤ now
          · simp [stateInvJs, BreakerJs.applyOp, BreakerJs.isAllowed, hle]
          · simpa [stateInvJs, BreakerJs.applyOp, BreakerJs.isAllowed, hle]
              using h2 rfl
      | HALF_OPEN => exact ⟨h1, h2⟩
  | recordSuccess =>
      cases st with
      | CLOSED =>
          have hlt := h1 rfl
          cases f with
          | nan => simp [jsLtNat] at hlt
          | num n =>
              have hn : n < (cfg.failureThreshold : Int) := by
                simpa [jsLtNat] using hlt
              obtain ⟨s, hs⟩ := Option.isSome_iff_exists.mp hS
              by_cases hgt : 0 < n
              · simp [stateInvJs, BreakerJs.applyOp, BreakerJs.recordSuccess,
                  jsGtZero, hgt, hs, jsSubOptNat, jsMaxZero, jsLtNat]
                omega
              · simp [stateInvJs, BreakerJs.applyOp, BreakerJs.recordSuccess,
                  jsGtZero, hgt, jsLtNat]
                omega
      | OPEN =>
          simpa [stateInvJs, BreakerJs.applyOp, BreakerJs.recordSuccess]
            using h2 rfl
      | HALF_OPEN =>
          simp [stateInvJs, BreakerJs.applyOp, BreakerJs.recordSuccess,
            BreakerJs.reset, jsGtZero, jsLtNat]
          omega
  | recordFailure now err =>
      cases st with
      | CLOSED =>
          have hlt := h1 rfl
          cases f with
          | nan => simp [jsLtNat] at hlt
          | num n =>
              have hn : n < (cfg.failureThreshold : Int) := by
                simpa [jsLtNat] using hlt
              by_cases hge : (cfg.failureThreshold : Int) ≤ n + 1
              · simp [stateInvJs, BreakerJs.applyOp, BreakerJs.recordFailure,
                  jsAddOne, jsGeNat, hge]
                omega
              · simp [stateInvJs, BreakerJs.applyOp, BreakerJs.recordFailure,
                  jsAddOne, jsGeNat, hge, jsLtNat]
                omega
      | OPEN =>
          simp only [BreakerJs.applyOp, recordFailureJs_open]
          exact ⟨by simp, fun _ => h2 rfl⟩
      | HALF_OPEN =>
          simp [stateInvJs, BreakerJs.applyOp, BreakerJs.recordFailure]
          omega
  | reset =>
      simp [stateInvJs, BreakerJs.applyOp, BreakerJs.reset, jsLtNat]
      omega

/-- Helper: the state invariants along any run over the JS model. -/
lemma runOpsJs_stateInv (ops : List BreakerOp) :
    ∀ b : BreakerJs, 0 < b.config.failureThreshold →
      0 < b.config.resetTimeout →
      b.config.successesBeforeReset.isSome = true →
      stateInvJs b → stateInvJs (b.runOps ops) := by
  induction ops with
  | nil => intro b _ _ _ h; exact h
  | cons op rest ih =>
      intro b hT hR hS h
      have hc := applyOpJs_config b op
      exact ih _ (by rw [hc]; exact hT) (by rw [hc]; exact hR)
        (by rw [hc]; exact hS) (applyOpJs_stateInv b op hT hR hS h)

/-- C9 (amended): over the breaker with JavaScript number semantics for
its failure counter, starting from a fresh registration with positive
failure threshold and reset timeout whose config supplies
successesBeforeReset, every run of isAllowed / recordSuccess /
recordFailure / reset operations keeps the invariants: in CLOSED the
failure count is below the threshold, and in OPEN nextAttemptTime is
positive.  The invariants do not survive (i) re-registration that
lowers the threshold below the current count, (ii) hydration of
arbitrary stored values from the shared store, or (iii) a registered
config that omits successesBeforeReset (as the repository's default
route config does): then one failure followed by one success leaves a
CLOSED breaker with failures = NaN, and NaN < failureThreshold is
false. -/
theorem breaker_runtime_invariants_js (cfg : CircuitBreakerConfigJs)
    (sid : String) (ops : List BreakerOp) (hT : 0 < cfg.failureThreshold)
    (hR : 0 < cfg.resetTimeout)
    (hS : cfg.successesBeforeReset.isSome = true) :
    ((BreakerJs.runOps (freshBreakerJs sid cfg) ops).state = CircuitState.CLOSED →
        jsLtNat (BreakerJs.runOps (freshBreakerJs sid cfg) ops).failures
          cfg.failureThreshold = true)
    ∧ ((BreakerJs.runOps (freshBreakerJs sid cfg) ops).state = CircuitState.OPEN →
        0 < (BreakerJs.runOps (freshBreakerJs sid cfg) ops).nextAttemptTime)
    ∧ (BreakerJs.runOps (freshBreakerJs sid cfgJsDefault)
        [.recordFailure 0 errW, .recordSuccess]).state = CircuitState.CLOSED
    ∧ (BreakerJs.runOps (freshBreakerJs sid cfgJsDefault)
        [.recordFailure 0 errW, .recordSuccess]).failures = JsNum.nan := by
  have hfresh : stateInvJs (freshBreakerJs sid cfg) := by
    constructor
    · intro _
      simp [freshBreakerJs, jsLtNat]
      omega
    · intro hx
      cases hx
  have hrun := runOpsJs_stateInv ops (freshBreakerJs sid cfg) hT hR hS hfresh
  have hcfg := runOpsJs_config ops (freshBreakerJs sid cfg)
  obtain ⟨g1, g2⟩ := hrun
  rw [hcfg] at g1
  exact ⟨g1, g2, rfl, rfl⟩

/-- Counterexample to C9 as stated: three failures under threshold 5
leave a CLOSED breaker with 3 failures; re-registering with threshold 2
(CircuitBreakerService.register delegates to updateConfig) leaves the
breaker CLOSED with failures at or above its threshold. -/
theorem breaker_invariant_cex :
    (((freshBreaker "svc" cfgFive).runOps opsC9).updateConfig cfgTwo).state
        = CircuitState.CLOSED
    ∧ ¬ (((freshBreaker "svc" cfgFive).runOps opsC9).updateConfig cfgTwo).failures
        < (((freshBreaker "svc" cfgFive).runOps opsC9).updateConfig cfgTwo).config.failureThreshold := by
  decide

/-- Witness for C9 (amended) at a fully supplied config and a single
failure, alongside the NaN divergence of the field-omitting default
config. -/
theorem breaker_runtime_invariants_js_witness :
    ((BreakerJs.runOps (freshBreakerJs "svc" cfgJsFive) opsC1).state = CircuitState.CLOSED →
        jsLtNat (BreakerJs.runOps (freshBreakerJs "svc" cfgJsFive) opsC1).failures
          cfgJsFive.failureThreshold = true)
    ∧ ((BreakerJs.runOps (freshBreakerJs "svc" cfgJsFive) opsC1).state = CircuitState.OPEN →
        0 < (BreakerJs.runOps (freshBreakerJs "svc" cfgJsFive) opsC1).nextAttemptTime)
    ∧ (BreakerJs.runOps (freshBreakerJs "svc" cfgJsDefault)
        [.recordFailure 0 errW, .recordSuccess]).state = CircuitState.CLOSED
    ∧ (BreakerJs.runOps (freshBreakerJs "svc" cfgJsDefault)
        [.recordFailure 0 errW, .recordSuccess]).failures = JsNum.nan :=
  breaker_runtime_invariants_js cfgJsFive "svc" opsC1 (by decide) (by decide) (by decide)

/-- Helper: saveRoutes never changes the in-memory route list. -/
lemma saveRoutes_fst_routes (env : WriteEnv) (s : StoreState) :
    (saveRoutes env s).1.routes = s.routes := by
  unfold saveRoutes
  cases env.fileWriteFails <;> cases env.redisWriteFails <;> simp

/-- Helper: saveRoutes throws exactly when the file write fails; a
shared-store failure is swallowed. -/
lemma saveRoutes_snd (env : WriteEnv) (s : StoreState) :
    (saveRoutes env s).2
      = (if env.fileWriteFails then JsResult.exn else JsResult.ok ()) := by
  unfold saveRoutes
  cases env.fileWriteFails <;> cases env.redisWriteFails <;> simp

/-- Helper: addRoute always appends, whatever the writes do. -/
lemma addRoute_routes (env : WriteEnv) (s : StoreState) (r : RouteConfig) :
    (addRoute env s r).1.routes = s.routes ++ [r] := by
  unfold addRoute
  exact saveRoutes_fst_routes env _

/-- C4 (amended): addRoute performs no uniqueness check: even when a
route with the same name is already present it appends the new route to
the list, and it succeeds exactly when the file write succeeds — no
name-conflict error exists. -/
theorem addRoute_ignores_duplicates (env : WriteEnv) (s : StoreState)
    (r : RouteConfig) (hdup : r.name ∈ s.routes.map RouteConfig.name) :
    (addRoute env s r).1.routes = s.routes ++ [r]
    ∧ ((addRoute env s r).2 = JsResult.ok () ↔ env.fileWriteFails = false) := by
  refine ⟨addRoute_routes env s r, ?_⟩
  unfold addRoute
  rw [saveRoutes_snd]
  cases hf : env.fileWriteFails <;> simp

/-- Counterexample to C4 as stated: adding a route whose name already
occurs returns success and appends a second copy instead of returning
an error and leaving the list unchanged. -/
theorem addRoute_unique_cex :
    (addRoute envOk s0 r0).2 = JsResult.ok ()
    ∧ (addRoute envOk s0 r0).1.routes = [r0, r0] := by
  decide

/-- Witness for C4 (amended) at a concrete duplicate-name route. -/
theorem addRoute_ignores_duplicates_witness :
    (addRoute envOk s0 r0).1.routes = s0.routes ++ [r0]
    ∧ ((addRoute envOk s0 r0).2 = JsResult.ok () ↔ envOk.fileWriteFails = false) :=
  addRoute_ignores_duplicates envOk s0 r0 (by decide)

/-- C5 (amended): every mutation applies its change to the in-memory
list before persisting and keeps it whatever the writes do — there is
no rollback; the operation throws exactly when the file write fails,
and a shared-store write failure is swallowed, so the operation then
still succeeds. -/
theorem mutations_persist_without_rollback (env : WriteEnv)
    (s : StoreState) (r : RouteConfig) (nm : String) :
    ((addRoute env s r).1.routes = s.routes ++ [r])
    ∧ ((addRoute env s r).2 = JsResult.ok () ↔ env.fileWriteFails = false)
    ∧ (∀ i, s.routes.findIdx? (fun q => q.name = nm) = some i →
        (updateRoute env s nm r).1.routes = s.routes.set i r
        ∧ ((updateRoute env s nm r).2 = JsResult.ok true
            ↔ env.fileWriteFails = false))
    ∧ ((s.routes.filter fun q => q.name ≠ nm).length ≠ s.routes.length →
        (deleteRoute env s nm).1.routes = (s.routes.filter fun q => q.name ≠ nm)
        ∧ ((deleteRoute env s nm).2 = JsResult.ok true
            ↔ env.fileWriteFails = false)) := by
  refine ⟨addRoute_routes env s r, ?_, ?_, ?_⟩
  · unfold addRoute
    rw [saveRoutes_snd]
    cases hf : env.fileWriteFails <;> simp
  · intro i hi
    constructor
    · simp only [updateRoute, hi]
      exact saveRoutes_fst_routes env _
    · simp only [updateRoute, hi]
      rw [saveRoutes_snd]
      cases hf : env.fileWriteFails <;> simp
  · intro hlen
    have hcond : ¬ ((s.routes.filter fun q => q.name ≠ nm).length
        = s.routes.length) := hlen
    constructor
    · simp only [deleteRoute]
      rw [if_neg hcond]
      exact saveRoutes_fst_routes env _
    · simp only [deleteRoute]
      rw [if_neg hcond, saveRoutes_snd]
      cases hf : env.fileWriteFails <;> simp

/-- Counterexample to C5 as stated: with the file write failing,
addRoute throws yet the in-memory list keeps the appended route — it is
not restored. -/
theorem mutation_rollback_cex :
    (addRoute envFileFail s0 r0).2 = JsResult.exn
    ∧ (addRoute envFileFail s0 r0).1.routes ≠ s0.routes := by
  decide

/-- Witness for C5 (amended): a concrete failing file write on a delete
and a concrete append on an add. -/
theorem mutations_persist_without_rollback_witness :
    ((deleteRoute envFileFail s0 "x").1.routes
        = (s0.routes.filter fun q => q.name ≠ "x")
      ∧ ((deleteRoute envFileFail s0 "x").2 = JsResult.ok true
          ↔ envFileFail.fileWriteFails = false))
    ∧ (addRoute envFileFail s0 r0).1.routes = s0.routes ++ [r0] :=
  ⟨(mutations_persist_without_rollback envFileFail s0 r0 "x").2.2.2 (by decide),
   (mutations_persist_without_rollback envFileFail s0 r0 "x").1⟩

/-- C6 (amended): adding a route and then deleting it by name restores
the original list, provided no pre-existing route already carries that
name; deleteRoute removes every route with the name, so a duplicate-name
add followed by the delete also removes the original. -/
theorem add_then_delete_restores (env : WriteEnv) (s : StoreState)
    (r : RouteConfig) (hfresh : r.name ∉ s.routes.map RouteConfig.name) :
    (deleteRoute env (addRoute env s r).1 r.name).1.routes = s.routes := by
  have hadd : (addRoute env s r).1.routes = s.routes ++ [r] :=
    addRoute_routes env s r
  have hkeep : (s.routes.filter fun q => q.name ≠ r.name) = s.routes := by
    apply List.filter_eq_self.mpr
    intro q hq
    have hne : q.name ≠ r.name := by
      intro he
      exact hfresh (he ▸ List.mem_map_of_mem RouteConfig.name hq)
    simpa using hne
  have hfil : ((addRoute env s r).1.routes.filter fun q => q.name ≠ r.name)
      = s.routes := by
    rw [hadd, List.filter_append, hkeep]
    simp
  have hne2 : ¬ ((addRoute env s r).1.routes.filter
      fun q => q.name ≠ r.name).length = (addRoute env s r).1.routes.length := by
    rw [hfil, hadd]
    simp
  simp only [deleteRoute, if_neg hne2]
  rw [saveRoutes_fst_routes, hfil]

/-- Counterexample to C6 as stated: adding a second route named x and
then deleting by the name x removes both copies, not just the added
one. -/
theorem add_then_delete_cex :
    (deleteRoute envOk (addRoute envOk s0 r0).1 r0.name).1.routes
      ≠ s0.routes := by
  decide

/-- Witness for C6 (amended) at a concrete fresh-named route. -/
theorem add_then_delete_restores_witness :
    (deleteRoute envOk (addRoute envOk s0 r1).1 r1.name).1.routes
      = s0.routes :=
  add_then_delete_restores envOk s0 r1 (by decide)

/-- Helper: the engine's short-circuiting evaluation returns the first
denier of the full evaluation trace, with its name attached, and
allowed when there is none. -/
lemma applyPolicies_eq_find {σ : Type} (engine : PolicyEngine σ) :
    ∀ (names : List String) (st : σ),
      applyPolicies engine names st
        = (match (evalTrace engine names st).find? (fun e => !e.2.allowed) with
           | some e => { e.2 with policyName := some e.1 }
           | none => { allowed := true }) := by
  intro names
  induction names with
  | nil => intro st; rfl
  | cons n rest ih =>
      intro st
      cases hg : getPolicy engine n with
      | none =>
          simp only [applyPolicies, evalTrace, hg]
          exact ih st
      | some p =>
          by_cases hal : (p.2 st).1.allowed = true
          · simp only [applyPolicies, evalTrace, hg]
            rw [if_pos hal, List.find?_cons_of_neg _ (by simp [hal])]
            exact ih (p.2 st).2
          · have hal2 : (p.2 st).1.allowed = false := by
              simpa using hal
            simp only [applyPolicies, evalTrace, hg]
            rw [if_neg hal, List.find?_cons_of_pos _ (by simp [hal2])]

/-- Helper: unregistered names in a chain are skipped: the engine
evaluates exactly as it would on the chain restricted to registered
names. -/
lemma applyPolicies_skip {σ : Type} (engine : PolicyEngine σ) :
    ∀ (names : List String) (st : σ),
      applyPolicies engine names st
        = applyPolicies engine
            (names.filter fun n => (getPolicy engine n).isSome) st := by
  intro names
  induction names with
  | nil => intro st; rfl
  | cons n rest ih =>
      intro st
      cases hg : getPolicy engine n with
      | none =>
          rw [List.filter_cons, if_neg (by simp [hg])]
          simp only [applyPolicies, hg]
          exact ih st
      | some p =>
          rw [List.filter_cons, if_pos (by simp [hg])]
          simp only [applyPolicies, hg]
          by_cases hal : (p.2 st).1.allowed = true
          · rw [if_pos hal, if_pos hal]
            exact ih (p.2 st).2
          · rw [if_neg hal, if_neg hal]

/-- C7: over any chain of policy names and any evaluation state, the
engine denies iff some evaluated policy in the trace returned
allowed = false; the returned denial is the first such result with its
policy's name attached; and names not registered in the engine are
skipped, never causing a denial. -/
theorem applyPolicies_first_denier {σ : Type} (engine : PolicyEngine σ)
    (names : List String) (st : σ) :
    ((applyPolicies engine names st).allowed = false
      ↔ ∃ e ∈ evalTrace engine names st, e.2.allowed = false)
    ∧ (applyPolicies engine names st
        = (match (evalTrace engine names st).find? (fun e => !e.2.allowed) with
           | some e => { e.2 with policyName := some e.1 }
           | none => { allowed := true }))
    ∧ applyPolicies engine names st
        = applyPolicies engine
            (names.filter fun n => (getPolicy engine n).isSome) st := by
  refine ⟨?_, applyPolicies_eq_find engine names st,
    applyPolicies_skip engine names st⟩
  rw [applyPolicies_eq_find engine names st]
  cases hfind : (evalTrace engine names st).find? (fun e => !e.2.allowed) with
  | none =>
      simp only [List.find?_eq_none] at hfind
      constructor
      · intro hfalse
        cases hfalse
      · rintro ⟨e, hmem, hfalse⟩
        have := hfind e hmem
        simp [hfalse] at this
  | some e =>
      constructor
      · intro _
        refine ⟨e, List.mem_of_find?_eq_some hfind, ?_⟩
        have := List.find?_some hfind
        simpa using this
      · intro _
        have := List.find?_some hfind
        simpa using this

/-- Helper: the defaulted limit and window are always positive. -/
lemma jsOrNum_pos (x : Option Nat) (d : Nat) (hd : 0 < d) :
    0 < jsOrNum x d := by
  cases x with
  | none => simpa [jsOrNum] using hd
  | some n =>
      by_cases hn : n = 0
      · simpa [jsOrNum, hn] using hd
      · simp [jsOrNum, hn]
        omega

/-- Helper: one rate-limited request leaves the counter unchanged when
at or over the limit and increments it otherwise. -/
lemma rlStep_count (limitOpt windowOpt : Option Nat) (st : RLState) :
    (rlStep limitOpt windowOpt st).count
      = (if jsOrNum limitOpt 100 ≤ st.count then st.count else st.count + 1) := by
  unfold rlStep rlEvaluate
  by_cases hle : jsOrNum limitOpt 100 ≤ st.count
  · rw [if_pos hle, if_pos hle]
  · rw [if_neg hle, if_neg hle]
    dsimp only
    split <;> rfl

/-- Helper: after k requests in a fresh window the counter reads
min k limit. -/
lemma rlIter_count (limitOpt windowOpt : Option Nat) :
    ∀ k, (rlIter limitOpt windowOpt k).count = min k (jsOrNum limitOpt 100) := by
  intro k
  induction k with
  | zero => simp [rlIter]
  | succ k ih =>
      have hs : rlIter limitOpt windowOpt (k + 1)
          = rlStep limitOpt windowOpt (rlIter limitOpt windowOpt k) := by
        simp only [rlIter, Function.iterate_succ_apply']
      rw [hs, rlStep_count, ih]
      by_cases hle : jsOrNum limitOpt 100 ≤ min k (jsOrNum limitOpt 100)
      · rw [if_pos hle]
        omega
      · rw [if_neg hle]
        omega

/-- C8: within one window, after k prior requests the next request is
denied iff k has reached the limit (default 100 when the context gives
none or 0), and a denial carries status 429; an allowed request
increments the counter; and the first request of the window sets the
key's expiry to the window length (default 60). -/
theorem rate_limit_window (limitOpt windowOpt : Option Nat) (k : Nat) :
    ((rlEvaluate limitOpt windowOpt (rlIter limitOpt windowOpt k)).1.allowed = false
      ↔ jsOrNum limitOpt 100 ≤ k)
    ∧ ((rlEvaluate limitOpt windowOpt (rlIter limitOpt windowOpt k)).1.allowed = false →
        (rlEvaluate limitOpt windowOpt (rlIter limitOpt windowOpt k)).1.statusCode
          = some 429)
    ∧ ((rlEvaluate limitOpt windowOpt (rlIter limitOpt windowOpt k)).1.allowed = true →
        (rlIter limitOpt windowOpt (k + 1)).count
          = (rlIter limitOpt windowOpt k).count + 1)
    ∧ (rlIter limitOpt windowOpt 1).expiry = some (jsOrNum windowOpt 60) := by
  have hcount := rlIter_count limitOpt windowOpt k
  by_cases hle : jsOrNum limitOpt 100 ≤ (rlIter limitOpt windowOpt k).count
  · have hklim : jsOrNum limitOpt 100 ≤ k := by omega
    refine ⟨?_, ?_, ?_, ?_⟩
    · unfold rlEvaluate
      rw [if_pos hle]
      simpa using hklim
    · intro _
      unfold rlEvaluate
      rw [if_pos hle]
    · intro hall
      exfalso
      unfold rlEvaluate at hall
      rw [if_pos hle] at hall
      simp at hall
    · unfold rlIter rlStep rlEvaluate
      have h1 : jsOrNum limitOpt 100 ≤ 0 → False := by
        have := jsOrNum_pos limitOpt 100 (by omega)
        omega
      simp only [Function.iterate_one]
      rw [if_neg (fun hx => h1 hx)]
      simp
  · have hklim : ¬ jsOrNum limitOpt 100 ≤ k := by omega
    refine ⟨?_, ?_, ?_, ?_⟩
    · unfold rlEvaluate
      rw [if_neg hle]
      simpa using hklim
    · intro hall
      exfalso
      unfold rlEvaluate at hall
      rw [if_neg hle] at hall
      simp at hall
    · intro _
      have hs : rlIter limitOpt windowOpt (k + 1)
          = rlStep limitOpt windowOpt (rlIter limitOpt windowOpt k) := by
        simp only [rlIter, Function.iterate_succ_apply']
      rw [hs, rlStep_count, if_neg hle]
    · unfold rlIter rlStep rlEvaluate
      have h1 : jsOrNum limitOpt 100 ≤ 0 → False := by
        have := jsOrNum_pos limitOpt 100 (by omega)
        omega
      simp only [Function.iterate_one]
      rw [if_neg (fun hx => h1 hx)]
      simp

/-- Witness for C8: with limit 2, the third request of a window is
denied with 429 while the second increments the counter, and the first
request sets the default 60 second expiry. -/
theorem rate_limit_window_witness :
    (rlEvaluate (some 2) none (rlIter (some 2) none 2)).1.statusCode = some 429
    ∧ (rlIter (some 2) none 2).count = (rlIter (some 2) none 1).count + 1
    ∧ (rlIter (some 2) none 1).expiry = some (jsOrNum none 60) :=
  ⟨(rate_limit_window (some 2) none 2).2.1
      ((rate_limit_window (some 2) none 2).1.mpr (by decide)),
   (rate_limit_window (some 2) none 1).2.2.1 (by decide),
   (rate_limit_window (some 2) none 0).2.2.2⟩

end EF
